import Mathlib

/-!
Shallow embedding of the repository file
pytests/iroha_cli_tests/src/iroha_cli/iroha_cli.py (class IrohaCli).

The wrapper builds a list of command-line tokens, spawns the external CLI
binary (directly or as a two-process pipe), captures stdout and stderr,
extracts a transaction hash, and resets its token buffer for reuse.  The
embedding below models:

* JSON documents handled by the instruction templates, together with the
  path-keyed update performed by IrohaCli._read_and_update_json;
* the mutable object state (command buffer, captured stdout, stderr,
  transaction hash) as an explicit record;
* process execution as a pure oracle giving, for each spawned command and
  optional piped stdin text, the stdout, stderr and exit status the external
  binary would produce; external side effects (endpoint randomization,
  process spawns, temp-file writes, report attachments) are recorded in an
  explicit effect trace.
-/

namespace IrohaCliModel

/-- JSON values, as parsed from the instruction template files. -/
inductive Json where
  | null : Json
  | bool (b : Bool) : Json
  | num (n : Int) : Json
  | str (s : String) : Json
  | arr (xs : List Json) : Json
  | obj (fields : List (String × Json)) : Json

/-- Python dictionary read d[k]: the value at the first matching key. -/
def getKey : List (String × Json) → String → Option Json
  | [], _ => none
  | (a, w) :: rest, key => if a = key then some w else getKey rest key

/-- Python dictionary assignment d[k] = v: replace the first binding of the
key in place, or append a new binding at the end. -/
def setKey : List (String × Json) → String → Json → List (String × Json)
  | [], key, v => [(key, v)]
  | (a, w) :: rest, key, v =>
      if a = key then (a, v) :: rest else (a, w) :: setKey rest key v

/-- Follow a path of keys through nested JSON objects (the successive
element = element[key] reads of _read_and_update_json); none models the
KeyError or TypeError Python would raise. -/
def lookup : Json → List String → Option Json
  | j, [] => some j
  | Json.obj fields, key :: rest =>
      match getKey fields key with
      | some v => lookup v rest
      | none => none
  | _, _ :: _ => none

/-- One override of _read_and_update_json: descend through key_path[:-1]
(each step requires an existing key in a JSON object) and assign the value
at the final key (which may be created).  none models a Python exception. -/
def update : Json → List String → Json → Option Json
  | _, [], _ => none
  | Json.obj fields, key :: rest, v =>
      match rest with
      | [] => some (Json.obj (setKey fields key v))
      | _ :: _ =>
          match getKey fields key with
          | some sub => (update sub rest v).map (fun s2 => Json.obj (setKey fields key s2))
          | none => none
  | _, _ :: _, _ => none

/-- Two key paths are disjoint when neither is a prefix of the other. -/
def disj : List String → List String → Bool
  | [], _ => false
  | _ :: _, [] => false
  | a :: ps, b :: qs => if a = b then disj ps qs else true

/-- Apply the overrides of _read_and_update_json in order (Python dicts
iterate in insertion order). -/
def applyChanges : Json → List (List String × Json) → Option Json
  | d, [] => some d
  | d, (p, v) :: rest =>
      match update d p v with
      | some d2 => applyChanges d2 rest
      | none => none

theorem getKey_setKey_self (l : List (String × Json)) (k : String) (v : Json) :
    getKey (setKey l k v) k = some v := by
  induction l with
  | nil => simp [setKey, getKey]
  | cons hd tl ih =>
      obtain ⟨a, w⟩ := hd
      by_cases h : a = k
      · subst h; simp [setKey, getKey]
      · simp [setKey, getKey, h, ih]

theorem getKey_setKey_ne (l : List (String × Json)) (k k2 : String) (v : Json)
    (h : k2 ≠ k) : getKey (setKey l k v) k2 = getKey l k2 := by
  induction l with
  | nil => simp [setKey, getKey, Ne.symm h]
  | cons hd tl ih =>
      obtain ⟨a, w⟩ := hd
      by_cases ha : a = k
      · subst ha
        simp [setKey, getKey, Ne.symm h]
      · simp [setKey, getKey, ha, ih]

theorem update_isSome (v : Json) : ∀ (p : List String) (j : Json),
    p ≠ [] → (lookup j p).isSome → (update j p v).isSome := by
  intro p
  induction p with
  | nil => intro j h _; exact absurd rfl h
  | cons k rest ih =>
      intro j _ hl
      cases j with
      | obj fields =>
          cases hg : getKey fields k with
          | none => simp [lookup, hg] at hl
          | some sub =>
              cases rest with
              | nil => simp [update]
              | cons r rs =>
                  simp only [lookup, hg] at hl
                  have hs := ih sub (by simp) hl
                  obtain ⟨s2, hs2⟩ := Option.isSome_iff_exists.mp hs
                  simp [update, hg, hs2]
      | null => simp [lookup] at hl
      | bool b => simp [lookup] at hl
      | num n => simp [lookup] at hl
      | str s => simp [lookup] at hl
      | arr xs => simp [lookup] at hl

theorem lookup_update_self (v : Json) : ∀ (p : List String) (j j2 : Json),
    update j p v = some j2 → lookup j2 p = some v := by
  intro p
  induction p with
  | nil => intro j j2 h; simp [update] at h
  | cons k rest ih =>
      intro j j2 h
      cases j with
      | obj fields =>
          cases rest with
          | nil =>
              simp only [update, Option.some_inj] at h
              subst h
              simp [lookup, getKey_setKey_self]
          | cons r rs =>
              cases hg : getKey fields k with
              | none => simp [update, hg] at h
              | some sub =>
                  simp only [update, hg, Option.map_eq_some'] at h
                  obtain ⟨s2, hs2, rfl⟩ := h
                  simp only [lookup, getKey_setKey_self]
                  exact ih sub s2 hs2
      | null => simp [update] at h
      | bool b => simp [update] at h
      | num n => simp [update] at h
      | str s => simp [update] at h
      | arr xs => simp [update] at h

theorem lookup_update_disj (v : Json) : ∀ (p q : List String) (j j2 : Json),
    update j p v = some j2 → disj p q = true → lookup j2 q = lookup j q := by
  intro p
  induction p with
  | nil => intro q j j2 h _; simp [update] at h
  | cons k rest ih =>
      intro q j j2 h hd
      cases q with
      | nil => simp [disj] at hd
      | cons b qs =>
          cases j with
          | obj fields =>
              by_cases hk : k = b
              · subst hk
                simp only [disj, if_pos rfl] at hd
                cases rest with
                | nil => simp [disj] at hd
                | cons r rs =>
                    cases hg : getKey fields k with
                    | none => simp [update, hg] at h
                    | some sub =>
                        simp only [update, hg, Option.map_eq_some'] at h
                        obtain ⟨s2, hs2, rfl⟩ := h
                        simp only [lookup, getKey_setKey_self, hg]
                        exact ih qs sub s2 hs2 hd
              · have hbk : b ≠ k := Ne.symm hk
                cases rest with
                | nil =>
                    simp only [update, Option.some_inj] at h
                    subst h
                    cases hgb : getKey fields b with
                    | none => simp [lookup, getKey_setKey_ne fields k b v hbk, hgb]
                    | some w => simp [lookup, getKey_setKey_ne fields k b v hbk, hgb]
                | cons r rs =>
                    cases hg : getKey fields k with
                    | none => simp [update, hg] at h
                    | some sub =>
                        simp only [update, hg, Option.map_eq_some'] at h
                        obtain ⟨s2, hs2, rfl⟩ := h
                        cases hgb : getKey fields b with
                        | none => simp [lookup, getKey_setKey_ne fields k b s2 hbk, hgb]
                        | some w => simp [lookup, getKey_setKey_ne fields k b s2 hbk, hgb]
          | null => simp [update] at h
          | bool bb => simp [update] at h
          | num n => simp [update] at h
          | str s => simp [update] at h
          | arr xs => simp [update] at h

theorem disj_comm : ∀ p q : List String, disj p q = disj q p := by
  intro p
  induction p with
  | nil => intro q; cases q <;> simp [disj]
  | cons a ps ih =>
      intro q
      cases q with
      | nil => simp [disj]
      | cons b qs =>
          by_cases h : a = b
          · subst h; simp [disj, ih]
          · simp [disj, h, Ne.symm h]

/-- Master lemma for _read_and_update_json: applying a list of overrides
whose paths all exist in the document and are pairwise disjoint succeeds,
sets exactly the overridden paths, and leaves every path disjoint from all
override paths untouched. -/
theorem applyChanges_spec :
    ∀ (cs : List (List String × Json)) (j : Json),
      (∀ c ∈ cs, c.1 ≠ [] ∧ (lookup j c.1).isSome) →
      cs.Pairwise (fun a b => disj a.1 b.1 = true) →
      ∃ j2, applyChanges j cs = some j2
        ∧ (∀ c ∈ cs, lookup j2 c.1 = some c.2)
        ∧ (∀ q, (∀ c ∈ cs, disj c.1 q = true) → lookup j2 q = lookup j q) := by
  intro cs
  induction cs with
  | nil =>
      intro j _ _
      exact ⟨j, rfl, by simp, fun q _ => rfl⟩
  | cons c cs ih =>
      intro j h1 h2
      obtain ⟨p, v⟩ := c
      have hp := h1 (p, v) (by simp)
      have hupd : (update j p v).isSome := update_isSome v p j hp.1 hp.2
      obtain ⟨j1, hj1⟩ := Option.isSome_iff_exists.mp hupd
      have hpair := List.pairwise_cons.mp h2
      have hcs : ∀ c2 ∈ cs, c2.1 ≠ [] ∧ (lookup j1 c2.1).isSome := by
        intro c2 hc
        have hmem := h1 c2 (List.mem_cons_of_mem _ hc)
        refine ⟨hmem.1, ?_⟩
        rw [lookup_update_disj v p c2.1 j j1 hj1 (hpair.1 c2 hc)]
        exact hmem.2
      obtain ⟨j2, hACs, hmemc, hframe⟩ := ih j1 hcs hpair.2
      refine ⟨j2, ?_, ?_, ?_⟩
      · simp [applyChanges, hj1, hACs]
      · intro c2 hc
        rcases List.mem_cons.mp hc with hceq | hc2
        · subst hceq
          have hfr := hframe p (fun c3 hc3 => by rw [disj_comm]; exact hpair.1 c3 hc3)
          rw [hfr, lookup_update_self v p j j1 hj1]
        · exact hmemc c2 hc2
      · intro q hq
        have h1q := hframe q (fun c hc => hq c (List.mem_cons_of_mem _ hc))
        rw [h1q, lookup_update_disj v p q j j1 hj1 (hq (p, v) (by simp))]

/-- Modelled from the spec: the path of the external CLI binary, imported
from common.settings (a file not present under src); its concrete value is
irrelevant to the wrapper's logic. -/
def IROHA_CLI_BINARY : String := "iroha"

/-- Modelled from the spec: the client configuration file path imported from
common.settings. -/
def IROHA_CLI_CONFIG : String := "client.toml"

/-- Modelled from the spec: the directory for temporary instruction JSON
files, imported from common.settings. -/
def ISI_PATH : String := "isi"

/-- IrohaCli.BASE_PATH. -/
def BASE_PATH : String := IROHA_CLI_BINARY

/-- IrohaCli.BASE_FLAGS. -/
def BASE_FLAGS : List String := ["--config=" ++ IROHA_CLI_CONFIG]

/-- The base form of the command buffer: binary path followed by the fixed
config flag. -/
def baseCmd : List String := BASE_PATH :: BASE_FLAGS

/-- What a spawned process produced: captured stdout and stderr text plus
its exit status. -/
structure ProcResult where
  stdout : String
  stderr : String
  exitCode : Int

/-- The external world, as a pure oracle.  run cmd feed gives the result of
spawning cmd (with the configuration environment) when feed text is piped
into its stdin (none models an inherited stdin).  extractHash models the
best-effort hash parser common.helpers.extract_hash (a file not present
under src; per the spec it is a total best-effort parser of stdout). -/
structure Oracle where
  run : List String → Option String → ProcResult
  extractHash : String → Option String

/-- Externally visible side effects of the wrapper, in order. -/
inductive Effect where
  | randomiseTorii : Effect
  | spawnSingle (cmd : List String) : Effect
  | spawnPipe (cmd1 cmd2 : List String) : Effect
  | writeJson (path : String) (doc : List Json) : Effect
  | attach (out err : String) : Effect

/-- The mutable fields of an IrohaCli object. -/
structure CliState where
  command : List String
  stdout : Option String
  stderr : Option String
  transaction_hash : Option String

/-- IrohaCli.__init__. -/
def initState : CliState :=
  { command := baseCmd, stdout := none, stderr := none, transaction_hash := none }

/-- Python list.insert i x: insert before position i, clamping at the ends. -/
def pyInsert (i : Nat) (x : String) (l : List String) : List String :=
  l.take i ++ x :: l.drop i

/-- IrohaCli._execute_single: spawn one command, capture stdout and stderr,
extract the transaction hash, attach the report. -/
def executeSingleFn (o : Oracle) (s : CliState) (cmd : List String) :
    CliState × List Effect :=
  let r := o.run cmd none
  ({ s with stdout := some r.stdout, stderr := some r.stderr,
            transaction_hash := o.extractHash r.stdout },
   [Effect.spawnSingle cmd, Effect.attach r.stdout r.stderr])

/-- IrohaCli._execute_pipe: spawn cmd1, feed its stdout into cmd2's stdin,
then capture stdout and stderr of the second process only. -/
def executePipeFn (o : Oracle) (s : CliState) (cmd1 cmd2 : List String) :
    CliState × List Effect :=
  let r1 := o.run cmd1 none
  let r2 := o.run cmd2 (some r1.stdout)
  ({ s with stdout := some r2.stdout, stderr := some r2.stderr,
            transaction_hash := o.extractHash r2.stdout },
   [Effect.spawnPipe cmd1 cmd2, Effect.attach r2.stdout r2.stderr])

/-- Index of the first pipe token, command.index of the Python source. -/
def pipeIdx (c : List String) : Nat := c.findIdx (fun t => t == "|")

/-- IrohaCli.execute: randomize the torii endpoint, pick the staged buffer
or an explicitly supplied command (Python splits a string with shlex; the
token list is taken as given here), dispatch on a pipe token, then restore
the buffer to its base form.  The effect trace lists the endpoint
randomization before the spawn. -/
def execute (o : Oracle) (s : CliState) (cmdArg : Option (List String)) :
    CliState × List Effect :=
  let command := match cmdArg with
    | none => s.command
    | some c => baseCmd ++ c
  let res :=
    if command.contains "|" then
      executePipeFn o s (command.take (pipeIdx command)) (command.drop (pipeIdx command + 1))
    else
      executeSingleFn o s command
  ({ res.1 with command := baseCmd }, Effect.randomiseTorii :: res.2)

/-- IrohaCli.register: stage the register token only. -/
def register (s : CliState) : CliState × List Effect :=
  ({ s with command := s.command ++ ["register"] }, [])

/-- IrohaCli.mint: stage the mint token only. -/
def mint (s : CliState) : CliState × List Effect :=
  ({ s with command := s.command ++ ["mint"] }, [])

/-- IrohaCli.list_all: stage the list and all tokens only. -/
def list_all (s : CliState) : CliState × List Effect :=
  ({ s with command := s.command ++ ["list", "all"] }, [])

/-- IrohaCli.list_filter: stage the list filter tokens only. -/
def list_filter (s : CliState) (criteria : String) : CliState × List Effect :=
  ({ s with command := s.command ++ ["list", "filter", criteria] }, [])

/-- IrohaCli.domain: insert the domain token at position 2, append the id
flag, then execute. -/
def domain (o : Oracle) (s : CliState) (d : String) : CliState × List Effect :=
  execute o { s with command := pyInsert 2 "domain" s.command ++ ["--id=" ++ d] } none

/-- IrohaCli.account: insert the account token at position 2, append the id
flag, then execute. -/
def account (o : Oracle) (s : CliState) (signatory d : String) :
    CliState × List Effect :=
  execute o
    { s with command := pyInsert 2 "account" s.command
        ++ ["--id=" ++ signatory ++ "@" ++ d] } none

/-- An asset definition value, as used by IrohaCli.asset. -/
structure AssetDefinition where
  name : String
  domain : String

/-- An account value, as used by IrohaCli.asset, transfer and burn. -/
structure Account where
  signatory : String
  domain : String

/-- Modelled from the spec: the printable form of an account object that
repr produces for the transfer --to flag (the Account class lives outside
src; the exact text is irrelevant to the claims). -/
def reprAccount (a : Account) : String := a.signatory ++ "@" ++ a.domain

/-- IrohaCli.asset: always inserts the asset token at position 2; only when
the asset definition, the account and a truthy (non-empty) value are all
supplied does it append the id and quantity flags and execute. -/
def asset (o : Oracle) (s : CliState) (ad : Option AssetDefinition)
    (ac : Option Account) (v : Option String) : CliState × List Effect :=
  let s1 : CliState := { s with command := pyInsert 2 "asset" s.command }
  match ad, ac, v with
  | some a, some c, some vv =>
      if vv = "" then (s1, [])
      else
        execute o
          { s1 with command := s1.command
              ++ ["--id=" ++ a.name ++ "#" ++ a.domain ++ "#"
                    ++ c.signatory ++ "@" ++ c.domain,
                  "--quantity=" ++ vv] } none
  | _, _, _ => (s1, [])

/-- IrohaCli.transfer: append the transfer tokens and flags, then execute. -/
def transfer (o : Oracle) (s : CliState) (a : AssetDefinition)
    (source target : Account) (quantity : String) : CliState × List Effect :=
  execute o
    { s with command := s.command
        ++ ["asset", "transfer", "--to=" ++ reprAccount target,
            "--id=" ++ a.name ++ "#" ++ a.domain ++ "#"
              ++ source.signatory ++ "@" ++ source.domain,
            "--quantity=" ++ quantity] } none

/-- IrohaCli.burn: append the burn tokens and flags, then execute. -/
def burn (o : Oracle) (s : CliState) (ac : Account) (a : AssetDefinition)
    (quantity : String) : CliState × List Effect :=
  execute o
    { s with command := s.command
        ++ ["asset", "burn",
            "--id=" ++ a.name ++ "#" ++ a.domain ++ "#"
              ++ ac.signatory ++ "@" ++ ac.domain,
            "--quantity=" ++ quantity] } none

/-- IrohaCli.asset_definition: insert definition then asset at position 2,
append the id flag and the optional scale flag, then execute. -/
def asset_definition (o : Oracle) (s : CliState) (a d : String)
    (scale : Option Nat) : CliState × List Effect :=
  let c3 := pyInsert 2 "asset" (pyInsert 2 "definition" s.command)
      ++ ["--id=" ++ a ++ "#" ++ d]
  let c4 := match scale with
    | some n => c3 ++ ["--scale=" ++ toString n]
    | none => c3
  execute o { s with command := c4 } none

/-- IrohaCli.nft: insert the nft token at position 2, append the id flag,
prepend an echo of the content and a pipe token, then execute. -/
def nft (o : Oracle) (s : CliState) (n d content : String) :
    CliState × List Effect :=
  execute o
    { s with command := "echo" :: content :: "|"
        :: (pyInsert 2 "nft" s.command ++ ["--id=" ++ n ++ "$" ++ d]) } none

/-- IrohaCli.version: append the version token, then execute. -/
def version (o : Oracle) (s : CliState) : CliState × List Effect :=
  execute o { s with command := s.command ++ ["version"] } none

/-- IrohaCli.reset: clear stdout and stderr and restore the base buffer.
The transaction hash field is not touched. -/
def reset (s : CliState) : CliState :=
  { s with stdout := none, stderr := none, command := baseCmd }

/-- IrohaCli.__exit__: context-manager exit calls reset. -/
def exitCtx (s : CliState) : CliState := reset s

/-- IrohaCli.should: placeholder, returns the object unchanged. -/
def should (s : CliState) : CliState := s

/-- The temporary file path ISI_PATH/isi_<template> used by
_read_and_update_json. -/
def tempPathFor (filename : String) : String := ISI_PATH ++ "/isi_" ++ filename

/-- IrohaCli._read_and_update_json: given the parsed template contents
(a list of instruction documents; the file itself lives outside src), apply
the overrides to the first document and give back the temp-file path with
the data to write there.  none models a Python exception (empty data or a
bad override path); with no overrides the data is passed through and the
first document is never touched. -/
def readAndUpdateJson (tpl : List Json) (filename : String)
    (changes : List (List String × Json)) : Option (String × List Json) :=
  if changes.isEmpty then
    some (tempPathFor filename, tpl)
  else
    match tpl with
    | [] => none
    | d :: rest =>
        match applyChanges d changes with
        | some d2 => some (tempPathFor filename, d2 :: rest)
        | none => none

/-- IrohaCli._execute_isi: pipe cat of the temp file into the binary's
transaction stdin sub-command.  Note: it calls _execute_pipe directly, not
execute, so no endpoint randomization happens and the command buffer is not
reset. -/
def executeIsi (o : Oracle) (s : CliState) (tempPath : String) :
    CliState × List Effect :=
  executePipeFn o s ["cat", tempPath] (baseCmd ++ ["transaction", "stdin"])

/-- Common shape of the five JSON-templated instruction methods: build the
temp file from the template and overrides, then run _execute_isi on it. -/
def runIsiMethod (o : Oracle) (tpl : List Json) (s : CliState)
    (filename : String) (changes : List (List String × Json)) :
    Option (CliState × List Effect) :=
  match readAndUpdateJson tpl filename changes with
  | none => none
  | some (path, doc) =>
      let r := executeIsi o s path
      some (r.1, Effect.writeJson path doc :: r.2)

/-- IrohaCli.register_trigger. -/
def register_trigger (o : Oracle) (tpl : List Json) (s : CliState)
    (acct : String) : Option (CliState × List Effect) :=
  runIsiMethod o tpl s "register_trigger.json"
    [(["Register", "Trigger", "action", "authority"], Json.str acct)]

/-- IrohaCli.unregister_asset. -/
def unregister_asset (o : Oracle) (tpl : List Json) (s : CliState)
    (a : String) : Option (CliState × List Effect) :=
  runIsiMethod o tpl s "unregister_asset.json"
    [(["Unregister", "Asset", "object"], Json.str a)]

/-- The overrides dictionary of IrohaCli.grant_permission, in source
(insertion) order: the object name first and the destination second. -/
def gpChanges (destination permission : String) : List (List String × Json) :=
  [(["Grant", "Permission", "object", "name"], Json.str permission),
   (["Grant", "Permission", "destination"], Json.str destination)]

/-- IrohaCli.grant_permission. -/
def grant_permission (o : Oracle) (tpl : List Json) (s : CliState)
    (destination permission : String) : Option (CliState × List Effect) :=
  runIsiMethod o tpl s "grant_permission.json" (gpChanges destination permission)

/-- IrohaCli.revoke_permission. -/
def revoke_permission (o : Oracle) (tpl : List Json) (s : CliState)
    (destination permission : String) : Option (CliState × List Effect) :=
  runIsiMethod o tpl s "revoke_permission.json"
    [(["Revoke", "Permission", "object", "name"], Json.str permission),
     (["Revoke", "Permission", "destination"], Json.str destination)]

/-- IrohaCli.send_wrong_instruction: no overrides. -/
def send_wrong_instruction (o : Oracle) (tpl : List Json) (s : CliState) :
    Option (CliState × List Effect) :=
  runIsiMethod o tpl s "wrong_instruction.json" []

/-- IrohaCli.wait_for with the default 20 second timeout of the object:
Python computes timeout or self._timeout, so both a missing and a zero
argument give 20. -/
def effTimeout : Option Nat → Nat
  | none => 20
  | some t => if t = 0 then 20 else t

/-- The polling loop of IrohaCli.wait_for under idealized timing: each
iteration sleeps exactly 0.25 seconds, so the elapsed monotonic time at the
n-th check is n quarter-seconds; limit is the timeout in quarter-seconds
and the loop raises exactly when the elapsed time strictly exceeds it. -/
def waitForAux (cond : Nat → Bool) (limit : Nat) (n : Nat) : Except String Nat :=
  if cond n then Except.ok n
  else if limit < n then Except.error "timeout"
  else waitForAux cond limit (n + 1)
termination_by limit + 1 - n
decreasing_by omega

/-- IrohaCli.wait_for: poll the condition every 0.25 seconds until it holds
or the configured duration is exceeded; ok carries the index of the
first successful check, error models the TimeoutError. -/
def wait_for (cond : Nat → Bool) (timeout : Option Nat) : Except String Nat :=
  waitForAux cond (4 * effTimeout timeout) 0

/-- Does an effect invoke Config.randomise_torii_url. -/
def isRandomise : Effect → Bool
  | Effect.randomiseTorii => true
  | _ => false

/-- Does an effect spawn the external process (either path). -/
def isSpawn : Effect → Bool
  | Effect.spawnSingle _ => true
  | Effect.spawnPipe _ _ => true
  | _ => false

/-- Number of endpoint randomizations in a trace. -/
def countRandomise (t : List Effect) : Nat := t.countP isRandomise

/-- Number of process spawns in a trace. -/
def countSpawn (t : List Effect) : Nat := t.countP isSpawn

/-- A constant-output oracle used for concrete evaluations. -/
def trivOracle : Oracle :=
  { run := fun _ _ => { stdout := "out", stderr := "err", exitCode := 0 },
    extractHash := fun _ => none }

/-- The command buffer starts with the binary path followed by the fixed
config flag. -/
def hasBase (s : CliState) : Prop := s.command.take 2 = baseCmd

theorem execute_command (o : Oracle) (s : CliState) (c : Option (List String)) :
    (execute o s c).1.command = baseCmd := rfl

theorem execute_counts (o : Oracle) (s : CliState) (c : Option (List String)) :
    countRandomise (execute o s c).2 = 1 ∧ countSpawn (execute o s c).2 = 1 := by
  simp only [execute]
  split
  · exact ⟨rfl, rfl⟩
  · exact ⟨rfl, rfl⟩

theorem execute_captures (o : Oracle) (s : CliState) (c : Option (List String)) :
    ∃ out err, (execute o s c).1.stdout = some out
      ∧ (execute o s c).1.stderr = some err
      ∧ (execute o s c).1.transaction_hash = o.extractHash out := by
  simp only [execute]
  split
  · exact ⟨_, _, rfl, rfl, rfl⟩
  · exact ⟨_, _, rfl, rfl, rfl⟩

theorem runIsi_some_shape (o : Oracle) (tpl : List Json) (s : CliState)
    (fn : String) (cs : List (List String × Json)) (r : CliState × List Effect)
    (h : runIsiMethod o tpl s fn cs = some r) :
    ∃ path doc, readAndUpdateJson tpl fn cs = some (path, doc)
      ∧ r = ((executeIsi o s path).1,
          Effect.writeJson path doc :: (executeIsi o s path).2) := by
  unfold runIsiMethod at h
  cases hru : readAndUpdateJson tpl fn cs with
  | none => rw [hru] at h; cases h
  | some pd =>
      rw [hru] at h
      obtain ⟨path, doc⟩ := pd
      simp only [Option.some_inj] at h
      exact ⟨path, doc, rfl, h.symm⟩

theorem length_of_take2 {l : List String} (h : l.take 2 = baseCmd) :
    2 ≤ l.length := by
  have h2 := congrArg List.length h
  simp only [List.length_take, baseCmd, BASE_FLAGS, List.length_cons,
    List.length_singleton] at h2
  omega

theorem take2_append (m : List String) {l : List String}
    (h : l.take 2 = baseCmd) : (l ++ m).take 2 = baseCmd := by
  rw [List.take_append_of_le_length (length_of_take2 h)]
  exact h

theorem take2_pyInsert (x : String) {l : List String}
    (h : l.take 2 = baseCmd) : (pyInsert 2 x l).take 2 = baseCmd := by
  unfold pyInsert
  have h2 : (l.take 2).length = 2 := by
    rw [h]; rfl
  rw [List.take_append_of_le_length (by omega), List.take_take]
  simpa using h

/-- Claim C1 fails as stated on the JSON-templated instruction path: the
methods built on _execute_isi spawn the pipe without ever invoking the
endpoint randomization.  Concretely, send_wrong_instruction performs one
spawn and zero randomizations. -/
theorem C1_counterexample :
    ∃ r, send_wrong_instruction trivOracle [Json.null] initState = some r
      ∧ countSpawn r.2 = 1 ∧ countRandomise r.2 = 0 :=
  ⟨_, rfl, rfl, rfl⟩

/-- Claim C1 (amended): every run of execute (the single-process path, the
piped path, and every builder method that calls execute) invokes the
endpoint randomization exactly once and spawns exactly once, while the
JSON-templated instruction path (_execute_isi, used by register_trigger,
unregister_asset, grant_permission, revoke_permission and
send_wrong_instruction) spawns exactly once but never invokes the endpoint
randomization. -/
theorem C1_amended_randomise :
    (∀ (o : Oracle) (s : CliState) (c : Option (List String)),
        countRandomise (execute o s c).2 = 1 ∧ countSpawn (execute o s c).2 = 1)
    ∧ (∀ (o : Oracle) (s : CliState) (p : String),
        countRandomise (executeIsi o s p).2 = 0 ∧ countSpawn (executeIsi o s p).2 = 1)
    ∧ (∀ (o : Oracle) (tpl : List Json) (s : CliState) (fn : String)
        (cs : List (List String × Json)) (r : CliState × List Effect),
        runIsiMethod o tpl s fn cs = some r →
        countRandomise r.2 = 0 ∧ countSpawn r.2 = 1) := by
  refine ⟨fun o s c => execute_counts o s c, fun o s p => ⟨rfl, rfl⟩, ?_⟩
  intro o tpl s fn cs r h
  obtain ⟨path, doc, _, rfl⟩ := runIsi_some_shape o tpl s fn cs r h
  exact ⟨rfl, rfl⟩

/-- Witness for C1 (amended) at a concrete template, oracle and state. -/
theorem C1_witness :
    countRandomise
        (((send_wrong_instruction trivOracle [Json.null] initState).getD
          (initState, [])).2) = 0
    ∧ countSpawn
        (((send_wrong_instruction trivOracle [Json.null] initState).getD
          (initState, [])).2) = 1 :=
  C1_amended_randomise.2.2 trivOracle [Json.null] initState
    "wrong_instruction.json" []
    ((send_wrong_instruction trivOracle [Json.null] initState).getD
      (initState, [])) rfl

/-- Claim C2 fails as stated: a call to asset with its default None
arguments inserts a token into the buffer but spawns nothing. -/
theorem C2_counterexample :
    (asset trivOracle initState none none none).2 = []
    ∧ countSpawn (asset trivOracle initState none none none).2 = 0 :=
  ⟨rfl, rfl⟩

/-- Claim C2 (amended): domain, account, transfer, burn and
asset_definition always execute (spawn exactly once) as their final side
effect; asset does so only when an asset definition, an account and a
truthy (non-empty) value are all supplied: whenever any argument is
missing or the value is the empty string, it only inserts the asset token
into the buffer and spawns nothing; register, mint, list_all and
list_filter only append tokens to the command buffer and never execute. -/
theorem C2_amended_execute_behavior :
    (∀ (o : Oracle) (s : CliState) (d : String), countSpawn (domain o s d).2 = 1)
    ∧ (∀ (o : Oracle) (s : CliState) (sig d : String),
        countSpawn (account o s sig d).2 = 1)
    ∧ (∀ (o : Oracle) (s : CliState) (a : AssetDefinition) (src tgt : Account)
        (q : String), countSpawn (transfer o s a src tgt q).2 = 1)
    ∧ (∀ (o : Oracle) (s : CliState) (ac : Account) (a : AssetDefinition)
        (q : String), countSpawn (burn o s ac a q).2 = 1)
    ∧ (∀ (o : Oracle) (s : CliState) (a d : String) (sc : Option Nat),
        countSpawn (asset_definition o s a d sc).2 = 1)
    ∧ (∀ (o : Oracle) (s : CliState) (ad : AssetDefinition) (ac : Account)
        (v : String), v ≠ "" →
        countSpawn (asset o s (some ad) (some ac) (some v)).2 = 1)
    ∧ (∀ (o : Oracle) (s : CliState) (ad : Option AssetDefinition)
        (ac : Option Account), (asset o s ad ac none).2 = [])
    ∧ (∀ (o : Oracle) (s : CliState) (ad : Option AssetDefinition)
        (ac : Option Account) (v : Option String),
        ad = none ∨ ac = none ∨ v = none ∨ v = some "" →
        (asset o s ad ac v).2 = []
        ∧ (asset o s ad ac v).1.command = pyInsert 2 "asset" s.command)
    ∧ (∀ s : CliState, (register s).2 = []
        ∧ (register s).1.command = s.command ++ ["register"])
    ∧ (∀ s : CliState, (mint s).2 = []
        ∧ (mint s).1.command = s.command ++ ["mint"])
    ∧ (∀ s : CliState, (list_all s).2 = []
        ∧ (list_all s).1.command = s.command ++ ["list", "all"])
    ∧ (∀ (s : CliState) (c : String), (list_filter s c).2 = []
        ∧ (list_filter s c).1.command = s.command ++ ["list", "filter", c]) := by
  refine ⟨fun o s d => (execute_counts o _ none).2,
    fun o s sig d => (execute_counts o _ none).2,
    fun o s a src tgt q => (execute_counts o _ none).2,
    fun o s ac a q => (execute_counts o _ none).2,
    ?_, ?_, ?_, ?_,
    fun s => ⟨rfl, rfl⟩, fun s => ⟨rfl, rfl⟩, fun s => ⟨rfl, rfl⟩,
    fun s c => ⟨rfl, rfl⟩⟩
  · intro o s a d sc
    cases sc with
    | none => exact (execute_counts o _ none).2
    | some n => exact (execute_counts o _ none).2
  · intro o s ad ac v hv
    simp only [asset]
    rw [if_neg hv]
    exact (execute_counts o _ none).2
  · intro o s ad ac
    cases ad <;> cases ac <;> rfl
  · intro o s ad ac v h
    rcases ad with _ | a <;> rcases ac with _ | c2 <;> rcases v with _ | vv <;>
      first
        | exact ⟨rfl, rfl⟩
        | (obtain rfl : vv = "" := by rcases h with h | h | h | h <;> simp_all
           exact ⟨rfl, rfl⟩)

/-- Witness for C2 (amended) at a concrete truthy asset call. -/
theorem C2_witness :
    countSpawn (asset trivOracle initState
      (some { name := "rose", domain := "wonderland" })
      (some { signatory := "alice", domain := "wonderland" })
      (some "5")).2 = 1 :=
  C2_amended_execute_behavior.2.2.2.2.2.1 trivOracle initState
    { name := "rose", domain := "wonderland" }
    { signatory := "alice", domain := "wonderland" } "5" (by decide)

/-- Claim C3 fails as stated: after an execution the captured outputs are
not cleared (stdout holds the captured text), and context-manager exit
leaves the extracted transaction hash in place. -/
theorem C3_counterexample :
    (execute trivOracle initState none).1.stdout ≠ none
    ∧ (exitCtx { initState with transaction_hash := some "h" }).transaction_hash
        ≠ none := by
  constructor
  · intro h
    simp only [execute, executeSingleFn, trivOracle, initState] at h
    revert h
    decide
  · intro h
    cases h

/-- The command list execute actually runs: the staged buffer, or the base
tokens followed by the explicitly supplied command. -/
def executedCommand (s : CliState) (cmdArg : Option (List String)) :
    List String :=
  match cmdArg with
  | none => s.command
  | some c => baseCmd ++ c

/-- The process result whose output execute captures: the second process of
the pipe when the run command contains a pipe token, otherwise the single
spawned process. -/
def capturedResult (o : Oracle) (s : CliState) (cmdArg : Option (List String)) :
    ProcResult :=
  let command := executedCommand s cmdArg
  if command.contains "|" then
    o.run (command.drop (pipeIdx command + 1))
      (some ((o.run (command.take (pipeIdx command)) none).stdout))
  else
    o.run command none

/-- Claim C3 (amended): after every execution call the command buffer
equals its base form, but the captured outputs are not cleared: stdout and
stderr hold exactly the just-captured text of the run process and
transaction_hash the hash just extracted from that stdout.  On
context-manager exit (and on reset) the command buffer is restored to its
base form and stdout and stderr are cleared to None, while
transaction_hash is retained unchanged. -/
theorem C3_amended_reset_behavior :
    (∀ (o : Oracle) (s : CliState) (c : Option (List String)),
        (execute o s c).1.command = baseCmd
        ∧ (execute o s c).1.stdout = some (capturedResult o s c).stdout
        ∧ (execute o s c).1.stderr = some (capturedResult o s c).stderr
        ∧ (execute o s c).1.transaction_hash
            = o.extractHash (capturedResult o s c).stdout)
    ∧ (∀ s : CliState, (exitCtx s).command = baseCmd
        ∧ (exitCtx s).stdout = none ∧ (exitCtx s).stderr = none
        ∧ (exitCtx s).transaction_hash = s.transaction_hash)
    ∧ (∀ s : CliState, (reset s).command = baseCmd
        ∧ (reset s).stdout = none ∧ (reset s).stderr = none
        ∧ (reset s).transaction_hash = s.transaction_hash) := by
  refine ⟨?_, fun s => ⟨rfl, rfl, rfl, rfl⟩, fun s => ⟨rfl, rfl, rfl, rfl⟩⟩
  intro o s c
  refine ⟨execute_command o s c, ?_⟩
  simp only [execute, capturedResult, executedCommand]
  split
  · exact ⟨rfl, rfl, rfl⟩
  · exact ⟨rfl, rfl, rfl⟩

theorem readAndUpdateJson_spec (d : Json) (rest : List Json)
    (filename : String) (cs : List (List String × Json))
    (h1 : ∀ c ∈ cs, c.1 ≠ [] ∧ (lookup d c.1).isSome)
    (h2 : cs.Pairwise (fun a b => disj a.1 b.1 = true)) :
    ∃ d2, readAndUpdateJson (d :: rest) filename cs
        = some (tempPathFor filename, d2 :: rest)
      ∧ (∀ c ∈ cs, lookup d2 c.1 = some c.2)
      ∧ (∀ q, (∀ c ∈ cs, disj c.1 q = true) → lookup d2 q = lookup d q) := by
  obtain ⟨d2, hA, hm, hf⟩ := applyChanges_spec cs d h1 h2
  refine ⟨d2, ?_, hm, hf⟩
  unfold readAndUpdateJson
  cases cs with
  | nil =>
      simp only [applyChanges, Option.some_inj] at hA
      subst hA
      rfl
  | cons c cs2 =>
      simp only [List.isEmpty_cons, Bool.false_eq_true, if_false, hA]

/-- Claim C4: the document handed to the temp-file write by
_read_and_update_json equals the template with exactly the overridden
paths replaced by their new values: every override path carries its new
value, every path disjoint from all override paths reads as in the
template, and the trailing documents of the template file are passed
through unchanged.  The override paths are required to exist in the
template and to be pairwise disjoint, as they are for every caller in the
source. -/
theorem C4_read_and_update_json (d : Json) (rest : List Json)
    (filename : String) (cs : List (List String × Json))
    (h1 : ∀ c ∈ cs, c.1 ≠ [] ∧ (lookup d c.1).isSome)
    (h2 : cs.Pairwise (fun a b => disj a.1 b.1 = true)) :
    ∃ d2, readAndUpdateJson (d :: rest) filename cs
        = some (tempPathFor filename, d2 :: rest)
      ∧ (∀ c ∈ cs, lookup d2 c.1 = some c.2)
      ∧ (∀ q, (∀ c ∈ cs, disj c.1 q = true) → lookup d2 q = lookup d q) :=
  readAndUpdateJson_spec d rest filename cs h1 h2

/-- A concrete permission-grant template document, shaped like the JSON
fixture grant_permission.json, for concrete evaluations. -/
def gpTemplate : Json :=
  Json.obj [("Grant", Json.obj [("Permission", Json.obj
    [("object", Json.obj [("name", Json.str "CanSetParameters")]),
     ("destination", Json.str "someone@wonderland")])])]

/-- Witness for C4 at a concrete template and a concrete override set. -/
theorem C4_witness :
    ∃ d2, readAndUpdateJson [gpTemplate] "grant_permission.json"
        (gpChanges "alice@wonderland" "CanBurnAsset")
        = some (tempPathFor "grant_permission.json", d2 :: [])
      ∧ (∀ c ∈ gpChanges "alice@wonderland" "CanBurnAsset",
          lookup d2 c.1 = some c.2)
      ∧ (∀ q, (∀ c ∈ gpChanges "alice@wonderland" "CanBurnAsset",
          disj c.1 q = true) → lookup d2 q = lookup gpTemplate q) :=
  C4_read_and_update_json gpTemplate [] "grant_permission.json"
    (gpChanges "alice@wonderland" "CanBurnAsset") (by decide) (by decide)

/-- Claim C8: grant_permission hands the temp-file write a document whose
Grant.Permission.destination field equals the destination argument and
whose Grant.Permission.object.name field equals the permission argument,
and then executes the pipe of cat temp-file into
binary --config=path transaction stdin, capturing the second process's
output. -/
theorem C8_grant_permission_spec (o : Oracle) (d : Json) (rest : List Json)
    (s : CliState) (dest perm : String)
    (h1 : (lookup d ["Grant", "Permission", "object", "name"]).isSome)
    (h2 : (lookup d ["Grant", "Permission", "destination"]).isSome) :
    ∃ d2 out err,
      grant_permission o (d :: rest) s dest perm = some
        ({ s with stdout := some out, stderr := some err,
                  transaction_hash := o.extractHash out },
         [Effect.writeJson (tempPathFor "grant_permission.json") (d2 :: rest),
          Effect.spawnPipe ["cat", tempPathFor "grant_permission.json"]
            (baseCmd ++ ["transaction", "stdin"]),
          Effect.attach out err])
      ∧ lookup d2 ["Grant", "Permission", "destination"] = some (Json.str dest)
      ∧ lookup d2 ["Grant", "Permission", "object", "name"]
          = some (Json.str perm) := by
  have h1' : ∀ c ∈ gpChanges dest perm, c.1 ≠ [] ∧ (lookup d c.1).isSome := by
    intro c hc
    simp only [gpChanges, List.mem_cons, List.mem_singleton,
      List.not_mem_nil, or_false] at hc
    rcases hc with rfl | rfl
    · exact ⟨by simp, h1⟩
    · exact ⟨by simp, h2⟩
  have h2' : List.Pairwise (fun a b => disj a.1 b.1 = true)
      (gpChanges dest perm) := by
    unfold gpChanges
    refine List.Pairwise.cons ?_ (List.Pairwise.cons (by simp) List.Pairwise.nil)
    intro b hb
    simp only [List.mem_singleton] at hb
    subst hb
    show disj ["Grant", "Permission", "object", "name"]
        ["Grant", "Permission", "destination"] = true
    decide
  obtain ⟨d2, hread, hm, _⟩ :=
    readAndUpdateJson_spec d rest "grant_permission.json"
      (gpChanges dest perm) h1' h2'
  refine ⟨d2,
    (o.run (baseCmd ++ ["transaction", "stdin"])
      (some ((o.run ["cat", tempPathFor "grant_permission.json"] none).stdout))).stdout,
    (o.run (baseCmd ++ ["transaction", "stdin"])
      (some ((o.run ["cat", tempPathFor "grant_permission.json"] none).stdout))).stderr,
    ?_,
    hm (["Grant", "Permission", "destination"], Json.str dest)
      (by simp [gpChanges]),
    hm (["Grant", "Permission", "object", "name"], Json.str perm)
      (by simp [gpChanges])⟩
  unfold grant_permission runIsiMethod
  rw [hread]
  rfl

/-- Witness for C8 at a concrete oracle, template, state and arguments. -/
theorem C8_witness :
    ∃ d2 out err,
      grant_permission trivOracle [gpTemplate] initState
          "alice@wonderland" "CanBurnAsset" = some
        ({ initState with stdout := some out, stderr := some err,
                          transaction_hash := trivOracle.extractHash out },
         [Effect.writeJson (tempPathFor "grant_permission.json") (d2 :: []),
          Effect.spawnPipe ["cat", tempPathFor "grant_permission.json"]
            (baseCmd ++ ["transaction", "stdin"]),
          Effect.attach out err])
      ∧ lookup d2 ["Grant", "Permission", "destination"]
          = some (Json.str "alice@wonderland")
      ∧ lookup d2 ["Grant", "Permission", "object", "name"]
          = some (Json.str "CanBurnAsset") :=
  C8_grant_permission_spec trivOracle gpTemplate [] initState
    "alice@wonderland" "CanBurnAsset" (by decide) (by decide)

theorem waitForAux_error_of_all_false (cond : Nat → Bool) (limit : Nat) :
    ∀ (fuel n : Nat), n ≤ limit + 1 → limit + 1 - n ≤ fuel →
      (∀ k, n ≤ k → k ≤ limit + 1 → cond k = false) →
      waitForAux cond limit n = Except.error "timeout" := by
  intro fuel
  induction fuel with
  | zero =>
      intro n hn hf h
      have hn2 : n = limit + 1 := by omega
      subst hn2
      rw [waitForAux, h (limit + 1) le_rfl le_rfl]
      simp
  | succ fuel ih =>
      intro n hn hf h
      rw [waitForAux, h n le_rfl hn]
      by_cases hl : limit < n
      · simp [hl]
      · simp only [Bool.false_eq_true, if_false, hl]
        exact ih (n + 1) (by omega) (by omega)
          (fun k hk1 hk2 => h k (by omega) hk2)

theorem waitForAux_all_false_of_error (cond : Nat → Bool) (limit : Nat) :
    ∀ (fuel n : Nat), limit + 1 - n ≤ fuel →
      waitForAux cond limit n = Except.error "timeout" →
      ∀ k, n ≤ k → k ≤ limit + 1 → cond k = false := by
  intro fuel
  induction fuel with
  | zero =>
      intro n hf herr k hk1 hk2
      have hkn : k = n := by omega
      subst hkn
      cases hcc : cond k with
      | false => rfl
      | true => rw [waitForAux, hcc] at herr; simp at herr
  | succ fuel ih =>
      intro n hf herr k hk1 hk2
      cases hcc : cond n with
      | true => rw [waitForAux, hcc] at herr; simp at herr
      | false =>
          rcases Nat.eq_or_lt_of_le hk1 with rfl | hlt
          · exact hcc
          · rw [waitForAux, hcc] at herr
            simp only [Bool.false_eq_true, if_false] at herr
            by_cases hl : limit < n
            · exact absurd hk2 (by omega)
            · rw [if_neg hl] at herr
              exact ih (n + 1) (by omega) herr k (by omega) hk2

theorem waitForAux_ok_of_first (cond : Nat → Bool) (limit : Nat) :
    ∀ (fuel n m : Nat), m - n ≤ fuel → n ≤ m → m ≤ limit + 1 →
      cond m = true → (∀ k, n ≤ k → k < m → cond k = false) →
      waitForAux cond limit n = Except.ok m := by
  intro fuel
  induction fuel with
  | zero =>
      intro n m hf hnm hml hc h
      have : n = m := by omega
      subst this
      rw [waitForAux, hc]
      simp
  | succ fuel ih =>
      intro n m hf hnm hml hc h
      rcases Nat.eq_or_lt_of_le hnm with rfl | hlt
      · rw [waitForAux, hc]; simp
      · have hcn : cond n = false := h n le_rfl hlt
        have hnl : ¬ limit < n := by omega
        rw [waitForAux, hcn]
        simp only [Bool.false_eq_true, if_false, hnl]
        exact ih (n + 1) m (by omega) (by omega) hml hc
          (fun k hk1 hk2 => h k (by omega) hk2)

/-- Claim C5 (under idealized timing: each polling iteration sleeps exactly
0.25 seconds, so the elapsed time at the n-th check is n quarter-seconds,
and the loop raises exactly when that elapsed time strictly exceeds the
effective timeout, 20 seconds by default): wait_for returns normally at the
first check at which the condition is true, and raises the timeout error if
and only if the condition is false at every check up to and including the
first one past the configured duration. -/
theorem C5_wait_for_spec (cond : Nat → Bool) (timeout : Option Nat) :
    effTimeout none = 20
    ∧ ((wait_for cond timeout = Except.error "timeout") ↔
        ∀ n, n ≤ 4 * effTimeout timeout + 1 → cond n = false)
    ∧ (∀ m, m ≤ 4 * effTimeout timeout + 1 → cond m = true →
        (∀ k, k < m → cond k = false) → wait_for cond timeout = Except.ok m) := by
  refine ⟨rfl, ⟨?_, ?_⟩, ?_⟩
  · intro herr n hn
    exact waitForAux_all_false_of_error cond (4 * effTimeout timeout)
      (4 * effTimeout timeout + 1) 0 (by omega) herr n (Nat.zero_le n) hn
  · intro h
    exact waitForAux_error_of_all_false cond (4 * effTimeout timeout)
      (4 * effTimeout timeout + 1) 0 (by omega) (by omega)
      (fun k _ hk => h k hk)
  · intro m hm hc h
    exact waitForAux_ok_of_first cond (4 * effTimeout timeout)
      m 0 m (by omega) (Nat.zero_le m) hm hc (fun k _ hk => h k hk)

/-- Witness for C5: a condition first true at the third check is reported
as ok 2 with a one second timeout. -/
theorem C5_witness :
    wait_for (fun n => n == 2) (some 1) = Except.ok 2 :=
  (C5_wait_for_spec (fun n => n == 2) (some 1)).2.2 2 (by decide) (by decide)
    (by decide)

/-- Claim C6: the module raises nothing of its own on command failure and
never inspects the exit status.  Both execution paths are total functions
of the oracle (the embedding has no failure outcome: a non-zero exit, a
missing hash or arbitrary stderr text only land in the stored fields), and
two oracles that agree on stdout, stderr and hash extraction but may
disagree arbitrarily on exit codes produce identical states and traces. -/
theorem C6_no_exit_code_dependence (o1 o2 : Oracle)
    (hout : ∀ c i, (o1.run c i).stdout = (o2.run c i).stdout)
    (herr : ∀ c i, (o1.run c i).stderr = (o2.run c i).stderr)
    (hh : ∀ t, o1.extractHash t = o2.extractHash t) :
    (∀ s cmd, executeSingleFn o1 s cmd = executeSingleFn o2 s cmd)
    ∧ (∀ s c1 c2, executePipeFn o1 s c1 c2 = executePipeFn o2 s c1 c2)
    ∧ (∀ s c, execute o1 s c = execute o2 s c)
    ∧ (∀ s p, executeIsi o1 s p = executeIsi o2 s p) := by
  have hsingle : ∀ s cmd, executeSingleFn o1 s cmd = executeSingleFn o2 s cmd := by
    intro s cmd
    simp [executeSingleFn, hout, herr, hh]
  have hpipe : ∀ s c1 c2, executePipeFn o1 s c1 c2 = executePipeFn o2 s c1 c2 := by
    intro s c1 c2
    simp [executePipeFn, hout, herr, hh]
  refine ⟨hsingle, hpipe, ?_, fun s p => hpipe s _ _⟩
  intro s c
  simp only [execute]
  split
  · rw [hpipe]
  · rw [hsingle]

/-- Two oracles for the C6 witness, identical except for the exit code. -/
def oracleExit0 : Oracle :=
  { run := fun _ _ => { stdout := "out", stderr := "err", exitCode := 0 },
    extractHash := fun _ => none }

/-- Second oracle of the C6 witness: every command fails with exit code 1. -/
def oracleExit1 : Oracle :=
  { run := fun _ _ => { stdout := "out", stderr := "err", exitCode := 1 },
    extractHash := fun _ => none }

/-- Witness for C6: a failing exit status produces the identical state and
trace. -/
theorem C6_witness :
    execute oracleExit0 initState none = execute oracleExit1 initState none :=
  (C6_no_exit_code_dependence oracleExit0 oracleExit1
    (fun _ _ => rfl) (fun _ _ => rfl) (fun _ => rfl)).2.2.1 initState none

/-- Claim C7: the piped execution path stores the second process's stdout
and stderr (the second process reading the first process's stdout on its
stdin), and whenever the two processes print different stdout text the
stored stdout is not the first process's. -/
theorem C7_pipe_captures_second (o : Oracle) (s : CliState)
    (c1 c2 : List String) :
    (executePipeFn o s c1 c2).1.stdout
        = some (o.run c2 (some (o.run c1 none).stdout)).stdout
    ∧ (executePipeFn o s c1 c2).1.stderr
        = some (o.run c2 (some (o.run c1 none).stdout)).stderr
    ∧ ((o.run c2 (some (o.run c1 none).stdout)).stdout
          ≠ (o.run c1 none).stdout →
        (executePipeFn o s c1 c2).1.stdout ≠ some (o.run c1 none).stdout) := by
  refine ⟨rfl, rfl, ?_⟩
  intro hne h
  exact hne (Option.some_inj.mp h)

/-- An oracle echoing the command it was given, for the C7 witness. -/
def headOracle : Oracle :=
  { run := fun c _ =>
      { stdout := String.intercalate " " c, stderr := "", exitCode := 0 },
    extractHash := fun _ => none }

/-- Witness for C7: with distinct process outputs, the stored stdout is not
the first process's output. -/
theorem C7_witness :
    (executePipeFn headOracle initState ["a"] ["b"]).1.stdout
      ≠ some ((headOracle.run ["a"] none).stdout) :=
  (C7_pipe_captures_second headOracle initState ["a"] ["b"]).2.2 (by decide)

theorem hasBase_execute (o : Oracle) (s : CliState) (c : Option (List String)) :
    hasBase (execute o s c).1 := by
  unfold hasBase
  rw [execute_command]
  rfl

theorem executeIsi_command (o : Oracle) (s : CliState) (p : String) :
    (executeIsi o s p).1.command = s.command := rfl

/-- Claim C9: after construction and after every public method returns
(builder methods, execute, reset, context-manager exit, should and the
JSON-templated instruction methods), the command buffer starts with the
binary path followed by the fixed config flag.  Methods ending in execute
restore the base buffer outright; staging methods and the JSON-templated
methods preserve the prefix. -/
theorem C9_base_prefix_invariant :
    hasBase initState
    ∧ (∀ s, hasBase s → hasBase (register s).1)
    ∧ (∀ s, hasBase s → hasBase (mint s).1)
    ∧ (∀ s, hasBase s → hasBase (list_all s).1)
    ∧ (∀ s c, hasBase s → hasBase (list_filter s c).1)
    ∧ (∀ (o : Oracle) (s : CliState) (c : Option (List String)),
        hasBase (execute o s c).1)
    ∧ (∀ (o : Oracle) (s : CliState) (d : String), hasBase (domain o s d).1)
    ∧ (∀ (o : Oracle) (s : CliState) (sig d : String),
        hasBase (account o s sig d).1)
    ∧ (∀ (o : Oracle) (s : CliState) (ad : Option AssetDefinition)
        (ac : Option Account) (v : Option String),
        hasBase s → hasBase (asset o s ad ac v).1)
    ∧ (∀ (o : Oracle) (s : CliState) (a : AssetDefinition) (src tgt : Account)
        (q : String), hasBase (transfer o s a src tgt q).1)
    ∧ (∀ (o : Oracle) (s : CliState) (ac : Account) (a : AssetDefinition)
        (q : String), hasBase (burn o s ac a q).1)
    ∧ (∀ (o : Oracle) (s : CliState) (a d : String) (sc : Option Nat),
        hasBase (asset_definition o s a d sc).1)
    ∧ (∀ (o : Oracle) (s : CliState) (n d ct : String),
        hasBase (nft o s n d ct).1)
    ∧ (∀ (o : Oracle) (s : CliState), hasBase (version o s).1)
    ∧ (∀ s, hasBase (reset s))
    ∧ (∀ s, hasBase (exitCtx s))
    ∧ (∀ s, hasBase s → hasBase (should s))
    ∧ (∀ (o : Oracle) (tpl : List Json) (s : CliState) (fn : String)
        (cs : List (List String × Json)) (r : CliState × List Effect),
        runIsiMethod o tpl s fn cs = some r → hasBase s → hasBase r.1)
    ∧ (∀ (o : Oracle) (tpl : List Json) (s : CliState) (a : String)
        (r : CliState × List Effect),
        register_trigger o tpl s a = some r → hasBase s → hasBase r.1)
    ∧ (∀ (o : Oracle) (tpl : List Json) (s : CliState) (a : String)
        (r : CliState × List Effect),
        unregister_asset o tpl s a = some r → hasBase s → hasBase r.1)
    ∧ (∀ (o : Oracle) (tpl : List Json) (s : CliState) (dst pr : String)
        (r : CliState × List Effect),
        grant_permission o tpl s dst pr = some r → hasBase s → hasBase r.1)
    ∧ (∀ (o : Oracle) (tpl : List Json) (s : CliState) (dst pr : String)
        (r : CliState × List Effect),
        revoke_permission o tpl s dst pr = some r → hasBase s → hasBase r.1)
    ∧ (∀ (o : Oracle) (tpl : List Json) (s : CliState)
        (r : CliState × List Effect),
        send_wrong_instruction o tpl s = some r → hasBase s → hasBase r.1) := by
  have hisi : ∀ (o : Oracle) (tpl : List Json) (s : CliState) (fn : String)
      (cs : List (List String × Json)) (r : CliState × List Effect),
      runIsiMethod o tpl s fn cs = some r → hasBase s → hasBase r.1 := by
    intro o tpl s fn cs r hr h
    obtain ⟨path, doc, _, rfl⟩ := runIsi_some_shape o tpl s fn cs r hr
    exact h
  refine ⟨rfl,
    fun s h => take2_append _ h,
    fun s h => take2_append _ h,
    fun s h => take2_append _ h,
    fun s c h => take2_append _ h,
    fun o s c => hasBase_execute o s c,
    fun o s d => hasBase_execute o _ none,
    fun o s sig d => hasBase_execute o _ none,
    ?_,
    fun o s a src tgt q => hasBase_execute o _ none,
    fun o s ac a q => hasBase_execute o _ none,
    ?_,
    fun o s n d ct => hasBase_execute o _ none,
    fun o s => hasBase_execute o _ none,
    fun s => rfl,
    fun s => rfl,
    fun s h => h,
    hisi,
    fun o tpl s a r hr h => hisi o tpl s _ _ r hr h,
    fun o tpl s a r hr h => hisi o tpl s _ _ r hr h,
    fun o tpl s dst pr r hr h => hisi o tpl s _ _ r hr h,
    fun o tpl s dst pr r hr h => hisi o tpl s _ _ r hr h,
    fun o tpl s r hr h => hisi o tpl s _ _ r hr h⟩
  · intro o s ad ac v h
    rcases ad with _ | a <;> rcases ac with _ | c2 <;> rcases v with _ | vv
    all_goals first
      | exact take2_pyInsert "asset" h
      | (by_cases hv : vv = ""
         · simp only [asset]
           rw [if_pos hv]
           exact take2_pyInsert "asset" h
         · simp only [asset]
           rw [if_neg hv]
           exact hasBase_execute o _ none)
  · intro o s a d sc
    cases sc with
    | none => exact hasBase_execute o _ none
    | some n => exact hasBase_execute o _ none

/-- Witness for C9 at the freshly constructed state. -/
theorem C9_witness : hasBase (register initState).1 :=
  C9_base_prefix_invariant.2.1 initState rfl

/-- Claim C10: the transaction hash field starts as None, is untouched by
reset, context-manager exit, the staging builders, should and a
non-executing asset call, and is overwritten exactly by the execution
paths, which set it to the hash extracted from the just-captured stdout. -/
theorem C10_transaction_hash_retained :
    (∀ s, (reset s).transaction_hash = s.transaction_hash)
    ∧ (∀ s, (exitCtx s).transaction_hash = s.transaction_hash)
    ∧ initState.transaction_hash = none
    ∧ (∀ s, (register s).1.transaction_hash = s.transaction_hash)
    ∧ (∀ s, (mint s).1.transaction_hash = s.transaction_hash)
    ∧ (∀ s, (list_all s).1.transaction_hash = s.transaction_hash)
    ∧ (∀ s c, (list_filter s c).1.transaction_hash = s.transaction_hash)
    ∧ (∀ s, (should s).transaction_hash = s.transaction_hash)
    ∧ (∀ (o : Oracle) (s : CliState) (ad : Option AssetDefinition)
        (ac : Option Account),
        (asset o s ad ac none).1.transaction_hash = s.transaction_hash)
    ∧ (∀ (o : Oracle) (s : CliState) (c : Option (List String)),
        ∃ out, (execute o s c).1.stdout = some out
          ∧ (execute o s c).1.transaction_hash = o.extractHash out)
    ∧ (∀ (o : Oracle) (s : CliState) (p : String),
        (executeIsi o s p).1.transaction_hash
          = o.extractHash ((o.run (baseCmd ++ ["transaction", "stdin"])
              (some ((o.run ["cat", p] none).stdout))).stdout)) := by
  refine ⟨fun s => rfl, fun s => rfl, rfl, fun s => rfl, fun s => rfl,
    fun s => rfl, fun s c => rfl, fun s => rfl, ?_, ?_, fun o s p => rfl⟩
  · intro o s ad ac
    rcases ad with _ | a <;> rcases ac with _ | c2 <;> rfl
  · intro o s c
    obtain ⟨out, err, ho, _, hh⟩ := execute_captures o s c
    exact ⟨out, ho, hh⟩

end IrohaCliModel
